import Mathlib

/-!
Verification development for the BHDML delivery dashboard (app.py and its
day-first variant).  The tabular core of the program is embedded shallowly:

* a spreadsheet cell is `Cell` (missing value `na`, a string, or a number);
* `read_report` mirrors the header-row discovery and the column
  normalization of `read_report` in app.py;
* `filter_routes_from_week` mirrors the route-union helper;
* `to_excel_route_day` mirrors the totals-row / formula layout of the
  per-route per-day export;
* the week snapshot save/load handlers are `save_table` / `load_week_json`.

Pandas specifics are modelled as follows: `str(x)` of a missing value is the
literal string "nan" (`cellStr`), `.fillna` replaces only missing values,
`.str.strip()` on a non-string value yields a missing value (`pdStrTrim`),
`pd.to_numeric(errors := coerce)` is `to_numeric_coerce` (its literal grammar
covers optional sign and decimal digits with an optional fractional part,
the forms occurring in the data), `.astype(int)` truncates toward zero
(`ratTrunc`), and `dropna(how := all, subset)` keeps a row iff some subset
cell is non-missing (with an empty subset every row is dropped, as pandas
does for `how = all`).  Python's `str.strip()` is modelled by `pstrip`.
-/

/-- A spreadsheet / DataFrame cell: missing (NaN), a string, or a number. -/
inductive Cell
  | na
  | str (s : String)
  | num (q : ℚ)
deriving DecidableEq, Repr

/-- Python whitespace (the characters `str.strip()` removes in this data). -/
def isSpacePy (c : Char) : Bool :=
  c == ' ' || c == '\t' || c == '\n' || c == '\r' || c == Char.ofNat 11 || c == Char.ofNat 12

/-- Strip leading and trailing whitespace from a character list. -/
def stripChars (cs : List Char) : List Char :=
  ((cs.dropWhile isSpacePy).reverse.dropWhile isSpacePy).reverse

/-- Python `str.strip()`. -/
def pstrip (s : String) : String :=
  String.mk (stripChars s.toList)

/-- Python `str(x)` as applied by pandas `astype(str)`: NaN prints as "nan". -/
def cellStr : Cell → String
  | .na => "nan"
  | .str s => s
  | .num q => toString q

/-- pandas `Series.fillna(d)` at one cell. -/
def fillna (d : String) : Cell → Cell
  | .na => .str d
  | c => c

/-- pandas `.str.strip()` at one cell: non-strings become missing. -/
def pdStrTrim : Cell → Cell
  | .str s => .str (pstrip s)
  | _ => .na

/-- Is the cell missing (`pd.isna`)? -/
def isNa : Cell → Bool
  | .na => true
  | _ => false

/-- Case-sensitive substring test (Python's `in` on strings). -/
def containsSub (needle hay : String) : Bool :=
  hay.toList.tails.any (fun t => needle.toList.isPrefixOf t)

/-- Numeric value of a digit list (most significant first). -/
def digitsVal (cs : List Char) : Nat :=
  cs.foldl (fun a c => a * 10 + (c.toNat - 48)) 0

/-- All characters are decimal digits. -/
def allDigits (cs : List Char) : Bool :=
  cs.all (fun c => c.isDigit)

/-- Parse an unsigned decimal literal (digits with optional fractional part). -/
def parseUnsigned (cs : List Char) : Option ℚ :=
  match cs.splitOn '.' with
  | [w] => if !w.isEmpty && allDigits w then some (digitsVal w) else none
  | [w, f] =>
      if (!w.isEmpty || !f.isEmpty) && allDigits w && allDigits f then
        some ((digitsVal w : ℚ) + (digitsVal f : ℚ) / ((10 : ℚ) ^ f.length))
      else none
  | _ => none

/-- Parse a signed decimal literal after stripping whitespace. -/
def parseNumeric (s : String) : Option ℚ :=
  match (pstrip s).toList with
  | [] => none
  | '-' :: rest => (parseUnsigned rest).map (fun q => -q)
  | '+' :: rest => parseUnsigned rest
  | cs => parseUnsigned cs

/-- `pd.to_numeric(x, errors = coerce)` at one cell: numbers pass through,
parseable strings parse, everything else becomes missing. -/
def to_numeric_coerce : Cell → Option ℚ
  | .na => none
  | .num q => some q
  | .str s => parseNumeric s

/-- Truncation toward zero, as `astype(int)` does on floats. -/
def ratTrunc (q : ℚ) : Int :=
  if q < 0 then -(Rat.floor (-q)) else Rat.floor q

/-- The Meals pipeline of `read_report` / the snapshot loader at one cell:
`pd.to_numeric(x, errors = coerce).fillna(0).astype(int)`. -/
def coerceMeals (c : Cell) : Int :=
  ratTrunc ((to_numeric_coerce c).getD 0)

/-- One normalized output row of `read_report` (the display columns).
Column presence is tracked at table level; a field of an absent column is a
dummy value.  `Meals` is `Int` (the pipeline always produces an integer) and
`Delivered` is `Bool` (set to the configured default at parse time). -/
structure OutRow where
  route : Cell
  clientID : Cell
  clientName : Cell
  address : Cell
  phone : Cell
  serviceType : Cell
  dietType : Cell
  meals : Int
  delivered : Bool
deriving DecidableEq, Repr

/-- A normalized table: which display columns exist, plus the rows.
`Delivered` always exists in tables held in the week state. -/
structure OutTable where
  hasRoute : Bool
  hasClientID : Bool
  hasClientName : Bool
  hasAddress : Bool
  hasPhone : Bool
  hasMeals : Bool
  hasServiceType : Bool
  hasDietType : Bool
  rows : List OutRow
deriving DecidableEq, Repr

/-- Column presence: `name in df.columns` (lookup in the header list). -/
def colIdx (headers : List String) (name : String) : Option Nat :=
  headers.indexOf? name

/-- `name in df.columns`. -/
def hasCol (headers : List String) (name : String) : Bool :=
  (colIdx headers name).isSome

/-- Read the cell of a (possibly absent) column from a raw row; missing
positions read as NaN, as pandas pads short rows. -/
def getCell (row : List Cell) (idx : Option Nat) : Cell :=
  match idx with
  | some j => row.getD j .na
  | none => .na

/-- The identity columns used by the `dropna` step, restricted to those
present (`subset=[c for c in [...] if c in df.columns]`). -/
def identityPresent (headers : List String) : List String :=
  ["Delivery Route", "Client ID", "Last Name", "First Name"].filter
    (fun c => hasCol headers c)

/-- `dropna(how = all, subset = identityPresent)`: keep a row iff some present
identity cell is non-missing (with an empty subset everything is dropped). -/
def keepRow (headers : List String) (row : List Cell) : Bool :=
  !((identityPresent headers).all (fun c => isNa (getCell row (colIdx headers c))))

/-- The rows surviving the `dropna` step. -/
def keptRows (headers : List String) (data : List (List Cell)) : List (List Cell) :=
  data.filter (keepRow headers)

/-- Client Name derivation: `(first.astype(str) + " " + last.astype(str)).str.strip()`. -/
def deriveName (first last : Cell) : String :=
  pstrip (cellStr first ++ " " ++ cellStr last)

/-- Address derivation of `read_report`: Line 1 is `astype(str)` without
blank-filling, Line 2 and Building are blank-filled first; each later part is
appended with a leading space unless blank after strip; the result is
stripped at both ends. -/
def deriveAddress (h1 h2 h3 : Bool) (c1 c2 c3 : Cell) : String :=
  let parts : List String :=
    (if h1 then [cellStr c1] else []) ++
    (if h2 then [cellStr (fillna "" c2)] else []) ++
    (if h3 then [cellStr (fillna "" c3)] else [])
  match parts with
  | [] => ""
  | p :: rest =>
      pstrip (rest.foldl (fun a q => a ++ (if pstrip q = "" then "" else " " ++ q)) p)

/-- Phone derivation of `read_report`: with both columns, mobile blank-filled
then masked to home where blank after strip; with one column, that column;
with none, the Phone column is absent (`none`).  The selected cell is
`astype(str).str.strip()`-ed. -/
def derivePhone (hasMobile hasHome : Bool) (mobile home : Cell) : Option String :=
  if hasMobile && hasHome then
    let m := fillna "" mobile
    let sel := if pdStrTrim m = Cell.str "" then fillna "" home else m
    some (pstrip (cellStr sel))
  else if hasMobile then some (pstrip (cellStr mobile))
  else if hasHome then some (pstrip (cellStr home))
  else none

/-- Build one normalized row from a raw data row. -/
def mkRow (headers : List String) (dflt : Bool) (row : List Cell) : OutRow :=
  { route := getCell row (colIdx headers "Delivery Route")
    clientID := getCell row (colIdx headers "Client ID")
    clientName :=
      if hasCol headers "First Name" && hasCol headers "Last Name" then
        .str (deriveName (getCell row (colIdx headers "First Name"))
                         (getCell row (colIdx headers "Last Name")))
      else .na
    address :=
      .str (deriveAddress (hasCol headers "Address Line 1")
              (hasCol headers "Address Line 2") (hasCol headers "Building")
              (getCell row (colIdx headers "Address Line 1"))
              (getCell row (colIdx headers "Address Line 2"))
              (getCell row (colIdx headers "Building")))
    phone :=
      match derivePhone (hasCol headers "Mobile Phone") (hasCol headers "Home Phone")
              (getCell row (colIdx headers "Mobile Phone"))
              (getCell row (colIdx headers "Home Phone")) with
      | some p => .str p
      | none => .na
    serviceType := getCell row (colIdx headers "Service Type")
    dietType := getCell row (colIdx headers "Diet Type")
    meals :=
      if hasCol headers "Quantity" then
        coerceMeals (getCell row (colIdx headers "Quantity"))
      else 0
    delivered := dflt }

/-- Normalization of the re-read sheet (`read_report` after the header row is
found): drop blank identity rows, derive the display columns, record which
columns exist.  `Meals` and `Delivered` always exist in the output. -/
def normalize_for_display (headers : List String) (data : List (List Cell)) (dflt : Bool) : OutTable :=
  { hasRoute := hasCol headers "Delivery Route"
    hasClientID := hasCol headers "Client ID"
    hasClientName := hasCol headers "First Name" && hasCol headers "Last Name"
    hasAddress := hasCol headers "Address Line 1" || hasCol headers "Address Line 2"
                    || hasCol headers "Building"
    hasPhone := hasCol headers "Mobile Phone" || hasCol headers "Home Phone"
    hasMeals := true
    hasServiceType := hasCol headers "Service Type"
    hasDietType := hasCol headers "Diet Type"
    rows := (keptRows headers data).map (mkRow headers dflt) }

/-- Scan for the header row: first index `i` in the prefix with
`str(df0.iloc[i, 0]).strip() == "Delivery Route"`. -/
def findHeaderGo (i : Nat) : List (List Cell) → Option Nat
  | [] => none
  | r :: rs =>
      if pstrip (cellStr (r.getD 0 .na)) = "Delivery Route" then some i
      else findHeaderGo (i + 1) rs

/-- Header-row discovery over the first `min(25, len(df0))` rows. -/
def findHeader (rows : List (List Cell)) : Option Nat :=
  findHeaderGo 0 (rows.take 25)

/-- `read_report`: find the header row on the Report sheet, re-read with that
header, and normalize; raise when the header cannot be found. -/
def read_report (rows : List (List Cell)) (dflt : Bool) : Except String OutTable :=
  match findHeader rows with
  | none =>
      .error "Could not find header row containing 'Delivery Route' on the 'Report' sheet."
  | some h =>
      .ok (normalize_for_display ((rows.getD h []).map cellStr) (rows.drop (h + 1)) dflt)

/-- The five-day week state (`{d: None for d in DAYS}` with DAYS fixed
Monday through Friday). -/
structure WeekState where
  monday : Option OutTable
  tuesday : Option OutTable
  wednesday : Option OutTable
  thursday : Option OutTable
  friday : Option OutTable
deriving DecidableEq, Repr

/-- The day tables in the fixed Monday-to-Friday iteration order. -/
def WeekState.days (w : WeekState) : List (Option OutTable) :=
  [w.monday, w.tuesday, w.wednesday, w.thursday, w.friday]

/-- Python `str.upper()` on the (ASCII) route names. -/
def upperStr (s : String) : String :=
  String.mk (s.toList.map Char.toUpper)

/-- The route cells a day contributes to the union scan: nothing unless the
day has a non-empty table with a Delivery Route column. -/
def dayCells (od : Option OutTable) : List Cell :=
  match od with
  | none => []
  | some df => if !df.rows.isEmpty && df.hasRoute then df.rows.map (fun r => r.route) else []

/-- One step of the route-union loop: skip missing values, skip COPO routes
when the flag is set (case-insensitive substring), append unseen names. -/
def routeStep (flag : Bool) (order : List String) (c : Cell) : List String :=
  match c with
  | .na => order
  | c =>
      let rs := cellStr c
      if flag && containsSub "COPO" (upperStr rs) then order
      else if rs ∈ order then order else order ++ [rs]

/-- `filter_routes_from_week`: first-seen union of route names across the
days in Monday-to-Friday order, truncated to `cap` entries. -/
def filter_routes_from_week (w : WeekState) (flag : Bool) (cap : Nat) : List String :=
  (w.days.foldl (fun order od => (dayCells od).foldl (routeStep flag) order) []).take cap

/-- What the loop body of `filter_routes_from_week` keeps of one cell
(specification-side restatement of the skip conditions). -/
def keepRoute (flag : Bool) (c : Cell) : Option String :=
  match c with
  | .na => none
  | c =>
      let rs := cellStr c
      if flag && containsSub "COPO" (upperStr rs) then none else some rs

/-- First-seen deduplication, skipping names already in `seen`
(specification-side restatement of the seen-set loop). -/
def dedupFirstSeen (seen : List String) : List String → List String
  | [] => []
  | x :: xs =>
      if x ∈ seen then dedupFirstSeen seen xs else x :: dedupFirstSeen (x :: seen) xs

/-- Delivered rendering used only at export time. -/
def renderDelivered (b : Bool) : String :=
  if b then "X" else ""

/-- The export column list: the fixed order filtered by presence
(`[c for c in [...] if c in df_day.columns]`). -/
def exportCols (t : OutTable) : List String :=
  (if t.hasRoute then ["Delivery Route"] else []) ++
  (if t.hasClientID then ["Client ID"] else []) ++
  (if t.hasClientName then ["Client Name"] else []) ++
  (if t.hasAddress then ["Address"] else []) ++
  (if t.hasPhone then ["Phone"] else []) ++
  (if t.hasMeals then ["Meals"] else []) ++
  (if t.hasServiceType then ["Service Type"] else []) ++
  (if t.hasDietType then ["Diet Type"] else []) ++
  ["Delivered"]

/-- The cell a row shows in a named export column; Delivered is rendered as
"X" or the empty string here (export only). -/
def getOutField (r : OutRow) (name : String) : Cell :=
  match name with
  | "Delivery Route" => r.route
  | "Client ID" => r.clientID
  | "Client Name" => r.clientName
  | "Address" => r.address
  | "Phone" => r.phone
  | "Meals" => .num (r.meals : ℚ)
  | "Service Type" => r.serviceType
  | "Diet Type" => r.dietType
  | "Delivered" => .str (renderDelivered r.delivered)
  | _ => .na

/-- `col_letter`: bijective base-26 column lettering from a 0-based index,
with fuel equal to the loop counter (the counter strictly decreases). -/
def col_letter_aux : Nat → Nat → List Char
  | 0, _ => []
  | fuel + 1, i =>
      if i = 0 then []
      else col_letter_aux fuel ((i - 1) / 26) ++ [Char.ofNat (65 + (i - 1) % 26)]

/-- `col_letter(i0)` of the export routines. -/
def col_letter (i0 : Nat) : String :=
  String.mk (col_letter_aux (i0 + 1) (i0 + 1))

/-- The COUNTIF totals formula string written under the Delivered column. -/
def countifFormula (L : String) (n : Nat) : String :=
  "=COUNTIF(" ++ L ++ "2:" ++ L ++ toString (n + 1) ++ ",\"X\")"

/-- The SUM totals formula string written under the Meals column. -/
def sumFormula (L : String) (n : Nat) : String :=
  "=SUM(" ++ L ++ "2:" ++ L ++ toString (n + 1) ++ ")"

/-- The observable layout of one exported sheet: the header row (0-indexed
row 0), the data rows (0-indexed rows 1..n), the 0-indexed row where TOTALS
is written, and the two formula cells as (row, column, formula text). -/
structure SheetModel where
  header : List String
  data : List (List Cell)
  totalsRow : Nat
  countif : Option (Nat × Nat × String)
  sum : Option (Nat × Nat × String)
deriving DecidableEq, Repr

/-- `to_excel_route_day`: filter the day table to one route, render Delivered
as "X"/"", write the rows below the header, write TOTALS immediately below
the data with COUNTIF / SUM formulas over the data range.  `none` models the
KeyError on a table without a route column. -/
def to_excel_route_day (t : OutTable) (routeName : String) : Option SheetModel :=
  if t.hasRoute then
    let cols := exportCols t
    let rdf := t.rows.filter (fun r => decide (cellStr r.route = routeName))
    let n := rdf.length
    some
      { header := cols
        data := rdf.map (fun r => cols.map (fun c => getOutField r c))
        totalsRow := n + 1
        countif :=
          if "Delivered" ∈ cols then
            let dcol := cols.indexOf "Delivered"
            some (n + 1, dcol, countifFormula (col_letter dcol) n)
          else none
        sum :=
          if "Meals" ∈ cols then
            let mcol := cols.indexOf "Meals"
            some (n + 1, mcol, sumFormula (col_letter mcol) n)
          else none }
  else none

/-- One row-object of the JSON snapshot (`df.to_dict(orient = records)`), or
of a loaded document.  Values of unsaved columns are dummy; `delivered` is a
JSON boolean when present. -/
structure SavedRow where
  route : Cell
  clientID : Cell
  clientName : Cell
  address : Cell
  phone : Cell
  serviceType : Cell
  dietType : Cell
  meals : Cell
  delivered : Bool
deriving DecidableEq, Repr

/-- A saved (or loaded) day table: which keys the row-objects carry, plus the
rows.  A hand-edited document may lack the Delivered or Meals keys. -/
structure SavedTable where
  hasRoute : Bool
  hasClientID : Bool
  hasClientName : Bool
  hasAddress : Bool
  hasPhone : Bool
  hasMeals : Bool
  hasServiceType : Bool
  hasDietType : Bool
  hasDelivered : Bool
  rows : List SavedRow
deriving DecidableEq, Repr

/-- Serialize one in-memory row (`to_dict` keeps strings, integers and
booleans as they are). -/
def saveRow (r : OutRow) : SavedRow :=
  { route := r.route
    clientID := r.clientID
    clientName := r.clientName
    address := r.address
    phone := r.phone
    serviceType := r.serviceType
    dietType := r.dietType
    meals := .num (r.meals : ℚ)
    delivered := r.delivered }

/-- Serialize one day table for the Save Week State download. -/
def save_table (t : OutTable) : SavedTable :=
  { hasRoute := t.hasRoute
    hasClientID := t.hasClientID
    hasClientName := t.hasClientName
    hasAddress := t.hasAddress
    hasPhone := t.hasPhone
    hasMeals := t.hasMeals
    hasServiceType := t.hasServiceType
    hasDietType := t.hasDietType
    hasDelivered := true
    rows := t.rows.map saveRow }

/-- Rebuild one day table from loaded row-objects
(`pd.DataFrame.from_records` then the Delivered backfill and the Meals
re-coercion of the load handler). -/
def restoreTable (s : SavedTable) (dflt : Bool) : OutTable :=
  { hasRoute := s.hasRoute
    hasClientID := s.hasClientID
    hasClientName := s.hasClientName
    hasAddress := s.hasAddress
    hasPhone := s.hasPhone
    hasMeals := s.hasMeals
    hasServiceType := s.hasServiceType
    hasDietType := s.hasDietType
    rows := s.rows.map (fun r =>
      { route := r.route
        clientID := r.clientID
        clientName := r.clientName
        address := r.address
        phone := r.phone
        serviceType := r.serviceType
        dietType := r.dietType
        meals := if s.hasMeals then coerceMeals r.meals else 0
        delivered := if s.hasDelivered then r.delivered else dflt }) }

/-- One day entry of a loaded JSON document: the null marker, a list of
row-objects, or a value whose deserialization raises (for example a value
`DataFrame.from_records` rejects). -/
inductive JsonDay
  | null
  | records (t : SavedTable)
  | bad (msg : String)
deriving DecidableEq, Repr

/-- A loaded week document, keyed by the five weekday names (a key missing
from the document reads as null through `raw.get(d)`). -/
structure RawSnapshot where
  monday : JsonDay
  tuesday : JsonDay
  wednesday : JsonDay
  thursday : JsonDay
  friday : JsonDay
deriving DecidableEq, Repr

/-- Deserialize one day of the loaded document. -/
def restore_day (dflt : Bool) : JsonDay → Except String (Option OutTable)
  | .null => .ok none
  | .records s => .ok (some (restoreTable s dflt))
  | .bad m => .error m

/-- The loop body of the load handler: build the whole new state, stopping at
the first deserialization failure. -/
def build_new_state (dflt : Bool) (r : RawSnapshot) : Except String WeekState := do
  let m ← restore_day dflt r.monday
  let tu ← restore_day dflt r.tuesday
  let w ← restore_day dflt r.wednesday
  let th ← restore_day dflt r.thursday
  let f ← restore_day dflt r.friday
  pure ⟨m, tu, w, th, f⟩

/-- The Load Week State handler: `json.load` may itself fail (`raw` is then
an error); any failure is caught, reported, and leaves the previous state in
place, because `st.session_state.week_state` is assigned only after the
whole new state is built. -/
def load_week_json (old : WeekState) (dflt : Bool) (raw : Except String RawSnapshot) :
    WeekState × Option String :=
  match raw.bind (build_new_state dflt) with
  | .ok n => (n, none)
  | .error e => (old, some ("Load failed: " ++ e))

/-- Serialize the week state for download (`None` day markers kept). -/
def save_week (w : WeekState) : RawSnapshot :=
  { monday := match w.monday with | some t => .records (save_table t) | none => .null
    tuesday := match w.tuesday with | some t => .records (save_table t) | none => .null
    wednesday := match w.wednesday with | some t => .records (save_table t) | none => .null
    thursday := match w.thursday with | some t => .records (save_table t) | none => .null
    friday := match w.friday with | some t => .records (save_table t) | none => .null }

/-- The per-day body of the upload loop: a missing upload leaves the day
alone; a failing `read_report` reports the error for that day and leaves the
day alone; a successful read replaces the day. -/
def procDay (dayName : String) (dflt : Bool) (old : Option OutTable)
    (up : Option (List (List Cell))) : Option OutTable × Option String :=
  match up with
  | none => (old, none)
  | some sheet =>
      match read_report sheet dflt with
      | .ok t => (some t, none)
      | .error e => (old, some (dayName ++ ": " ++ e))

/-- The five optional uploads, one per weekday. -/
structure Uploads where
  monday : Option (List (List Cell))
  tuesday : Option (List (List Cell))
  wednesday : Option (List (List Cell))
  thursday : Option (List (List Cell))
  friday : Option (List (List Cell))
deriving DecidableEq, Repr

/-- The upload loop over the five days: each day is processed independently
and failures are collected per file. -/
def process_uploads (old : WeekState) (ups : Uploads) (dflt : Bool) :
    WeekState × List String :=
  let m := procDay "Monday" dflt old.monday ups.monday
  let tu := procDay "Tuesday" dflt old.tuesday ups.tuesday
  let w := procDay "Wednesday" dflt old.wednesday ups.wednesday
  let th := procDay "Thursday" dflt old.thursday ups.thursday
  let f := procDay "Friday" dflt old.friday ups.friday
  (⟨m.1, tu.1, w.1, th.1, f.1⟩, [m.2, tu.2, w.2, th.2, f.2].filterMap id)

/-- Single-space join of the non-blank segments (specification-side
restatement of the address contract). -/
def joinNonBlank (parts : List String) : String :=
  match parts.filter (fun p => !(p == "")) with
  | [] => ""
  | p :: rest => rest.foldl (fun a q => a ++ " " ++ q) p

/-! ### Helper lemmas about stripping and lists -/

theorem head?_dropWhile_false (p : Char → Bool) (l : List Char) :
    ∀ c, (l.dropWhile p).head? = some c → p c = false := by
  induction l with
  | nil => intro c h; simp at h
  | cons a t ih =>
      intro c h
      rw [List.dropWhile_cons] at h
      by_cases hp : p a = true
      · exact ih c (by simpa [hp] using h)
      · simp only [hp, if_neg] at h
        simp only [Bool.not_eq_true] at hp
        simp at h
        rw [← h]
        exact hp

theorem dropWhile_eq_self_of_head (p : Char → Bool) (l : List Char)
    (h : ∀ c, l.head? = some c → p c = false) : l.dropWhile p = l := by
  cases l with
  | nil => rfl
  | cons a t =>
      rw [List.dropWhile_cons, if_neg]
      simp [h a rfl]

theorem stripChars_eq_self_of (l : List Char)
    (h1 : ∀ c, l.head? = some c → isSpacePy c = false)
    (h2 : ∀ c, l.getLast? = some c → isSpacePy c = false) :
    stripChars l = l := by
  unfold stripChars
  rw [dropWhile_eq_self_of_head isSpacePy l h1]
  rw [dropWhile_eq_self_of_head isSpacePy l.reverse
    (by intro c hc; rw [List.head?_reverse] at hc; exact h2 c hc)]
  exact List.reverse_reverse l

theorem last_not_space_of_stripChars_self (l : List Char) (h : stripChars l = l) :
    ∀ c, l.getLast? = some c → isSpacePy c = false := by
  intro c hc
  rw [← h] at hc
  unfold stripChars at hc
  rw [List.getLast?_reverse] at hc
  exact head?_dropWhile_false isSpacePy _ c hc

theorem head_not_space_of_stripChars_self (l : List Char) (h : stripChars l = l) :
    ∀ c, l.head? = some c → isSpacePy c = false := by
  intro c hc
  have hne : l ≠ [] := by intro he; rw [he] at hc; simp at hc
  set u := l.dropWhile isSpacePy with hu
  set v := u.reverse.dropWhile isSpacePy with hv
  have hl : v.reverse = l := h
  have hvne : v ≠ [] := by
    intro he; rw [he] at hl; exact hne (by simpa using hl.symm)
  have hsuf : v <:+ u.reverse := List.dropWhile_suffix isSpacePy
  obtain ⟨tpre, ht⟩ := hsuf
  have hlast : u.reverse.getLast? = v.getLast? := by
    rw [← ht]; exact List.getLast?_append_of_ne_nil tpre hvne
  have hh : l.head? = v.getLast? := by
    rw [← hl, List.head?_reverse]
  have hh2 : v.getLast? = u.head? := by
    rw [← hlast, List.getLast?_reverse]
  have : u.head? = some c := by rw [← hh2, ← hh]; exact hc
  exact head?_dropWhile_false isSpacePy l c this

theorem toList_append (a b : String) : (a ++ b).toList = a.toList ++ b.toList :=
  String.data_append a b

theorem toList_ne_nil (s : String) (h : s ≠ "") : s.toList ≠ [] := by
  intro he
  apply h
  cases s with
  | mk d => cases he; rfl

theorem pstrip_data (s : String) : (pstrip s).toList = stripChars s.toList := rfl

theorem pstrip_eq_self_of (s : String)
    (h1 : ∀ c, s.toList.head? = some c → isSpacePy c = false)
    (h2 : ∀ c, s.toList.getLast? = some c → isSpacePy c = false) :
    pstrip s = s := by
  cases s with
  | mk d =>
      show String.mk (stripChars d) = String.mk d
      rw [stripChars_eq_self_of d h1 h2]

theorem head_not_space_of_pstrip_self (s : String) (h : pstrip s = s) :
    ∀ c, s.toList.head? = some c → isSpacePy c = false := by
  have : stripChars s.toList = s.toList := by
    have := congrArg String.toList h
    rwa [pstrip_data] at this
  exact head_not_space_of_stripChars_self _ this

theorem last_not_space_of_pstrip_self (s : String) (h : pstrip s = s) :
    ∀ c, s.toList.getLast? = some c → isSpacePy c = false := by
  have : stripChars s.toList = s.toList := by
    have := congrArg String.toList h
    rwa [pstrip_data] at this
  exact last_not_space_of_stripChars_self _ this

/-! ### Claim C1 -/

/-- Claim C1 fails as stated: the Meals pipeline does not enforce
non-negativity.  A parsed row whose Quantity is "-3" yields Meals = -3, a
negative integer, through `read_report`. -/
theorem c1_counterexample :
    (read_report [[Cell.str "Delivery Route", Cell.str "Quantity"],
        [Cell.str "R1", Cell.str "-3"]] true).map
        (fun t => t.rows.map (fun r => r.meals)) = .ok [-3]
    ∧ (-3 : Int) < 0 := by
  constructor
  · rfl
  · decide

/-- Claim C1 (amended): for every parsed row the derived Meals is an integer
and never null: a missing or non-parseable Quantity yields 0 and a parseable
value is cast (truncated) to integer — but it is not forced non-negative; a
negative source quantity stays negative.  Row-wise, `normalize_for_display`
gives every kept row exactly this coerced value (0 when the Quantity column
is absent). -/
theorem c1_meals_integer (c : Cell) (q : ℚ) (headers : List String)
    (data : List (List Cell)) (dflt : Bool) :
    (to_numeric_coerce c = none → coerceMeals c = 0)
    ∧ (to_numeric_coerce c = some q → coerceMeals c = ratTrunc q)
    ∧ ((normalize_for_display headers data dflt).rows.map (fun r => r.meals)
        = (keptRows headers data).map (fun row =>
            if hasCol headers "Quantity" then
              coerceMeals (getCell row (colIdx headers "Quantity"))
            else 0)) := by
  refine ⟨?_, ?_, ?_⟩
  · intro h
    unfold coerceMeals
    rw [h]
    rfl
  · intro h
    unfold coerceMeals
    rw [h]
    rfl
  · simp [normalize_for_display, mkRow, List.map_map, Function.comp]

/-- Witness for C1: concrete evaluations through the amended theorem. -/
theorem c1_witness :
    coerceMeals (Cell.str "abc") = 0 ∧ coerceMeals (Cell.num 7) = ratTrunc 7 :=
  ⟨(c1_meals_integer (Cell.str "abc") 0 [] [] true).1 rfl,
   (c1_meals_integer (Cell.num 7) 7 [] [] true).2.1 rfl⟩

/-! ### Claim C10 -/

theorem foldl_append_extend (g : String → String) :
    ∀ (rest : List String) (a : String),
      ∃ x, rest.foldl (fun acc q => acc ++ g q) a = a ++ x := by
  intro rest
  induction rest with
  | nil => intro a; exact ⟨"", (String.append_empty a).symm⟩
  | cons q qs ih =>
      intro a
      obtain ⟨x, hx⟩ := ih (a ++ g q)
      exact ⟨g q ++ x, by rw [List.foldl_cons, hx, String.append_assoc]⟩

theorem dropWhile_append_cases (p : Char → Bool) :
    ∀ (u ys : List Char),
      List.dropWhile p (u ++ ys) = List.dropWhile p u ++ ys
      ∨ (List.dropWhile p u = [] ∧ List.dropWhile p (u ++ ys) = List.dropWhile p ys) := by
  intro u
  induction u with
  | nil => intro ys; right; exact ⟨rfl, by simp⟩
  | cons a t ih =>
      intro ys
      by_cases hp : p a = true
      · rcases ih ys with h | ⟨h1, h2⟩
        · left
          simp only [List.cons_append, List.dropWhile_cons, hp, if_pos]
          exact h
        · right
          constructor
          · simp [List.dropWhile_cons, hp, h1]
          · simp only [List.cons_append, List.dropWhile_cons, hp, if_pos]
            exact h2
      · left
        simp [List.dropWhile_cons, hp]

theorem stripChars_nan_prefix (l : List Char) :
    ∃ z, stripChars ('n' :: 'a' :: 'n' :: l) = 'n' :: 'a' :: 'n' :: z := by
  unfold stripChars
  have hn : isSpacePy 'n' = false := rfl
  rw [List.dropWhile_cons, if_neg (by simp [hn])]
  have hrev : ('n' :: 'a' :: 'n' :: l).reverse = l.reverse ++ ['n', 'a', 'n'] := by
    simp
  rw [hrev]
  rcases dropWhile_append_cases isSpacePy l.reverse ['n', 'a', 'n'] with h | ⟨_, h2⟩
  · rw [h]
    exact ⟨(List.dropWhile isSpacePy l.reverse).reverse, by simp⟩
  · rw [h2]
    rw [List.dropWhile_cons, if_neg (by simp [hn])]
    exact ⟨[], by simp⟩

theorem containsSub_nan (s : String) (heq : ∃ z, s.toList = 'n' :: 'a' :: 'n' :: z) :
    containsSub "nan" s = true := by
  obtain ⟨z, hz⟩ := heq
  unfold containsSub
  rw [hz, List.tails_cons]
  simp [List.isPrefixOf]

theorem foldl_sep_extend :
    ∀ (rest : List String) (a : String),
      ∃ x, rest.foldl (fun acc q => acc ++ (if pstrip q = "" then "" else " " ++ q)) a
        = a ++ x :=
  foldl_append_extend (fun q => if pstrip q = "" then "" else " " ++ q)

/-- Claim C10 (confirmed): when the Address Line 1 column is present but a
row's cell is missing, `astype(str)` (with no blank-fill, unlike Line 2 and
Building) renders it as the literal "nan", and the derived Address contains
"nan" as a substring whatever the other address parts hold. -/
theorem c10_nan_line1 (h2 h3 : Bool) (c2 c3 : Cell) :
    containsSub "nan" (deriveAddress true h2 h3 Cell.na c2 c3) = true := by
  show containsSub "nan"
    (pstrip (((if h2 then [cellStr (fillna "" c2)] else []) ++
        (if h3 then [cellStr (fillna "" c3)] else [])).foldl
      (fun a q => a ++ (if pstrip q = "" then "" else " " ++ q)) "nan")) = true
  obtain ⟨x, hx⟩ := foldl_sep_extend ((if h2 then [cellStr (fillna "" c2)] else []) ++
    (if h3 then [cellStr (fillna "" c3)] else [])) "nan"
  rw [hx]
  apply containsSub_nan
  have h1 : ("nan" ++ x).toList = 'n' :: 'a' :: 'n' :: x.toList := by
    rw [toList_append]
    rfl
  rw [pstrip_data, h1]
  exact stripChars_nan_prefix x.toList

/-! ### Claim C5 -/

theorem append_ne_empty_left (a b : String) (ha : a ≠ "") : a ++ b ≠ "" := by
  intro h
  apply toList_ne_nil a ha
  have := congrArg String.toList h
  rw [toList_append] at this
  exact List.append_eq_nil.mp this |>.1

theorem pstrip_append_sep (a b : String) (ha1 : pstrip a = a) (ha0 : a ≠ "")
    (hb1 : pstrip b = b) (hb0 : b ≠ "") :
    pstrip (a ++ (" " ++ b)) = a ++ (" " ++ b) := by
  apply pstrip_eq_self_of
  · intro c hc
    rw [toList_append, List.head?_append_of_ne_nil _ (toList_ne_nil a ha0)] at hc
    exact head_not_space_of_pstrip_self a ha1 c hc
  · intro c hc
    rw [toList_append, List.getLast?_append_of_ne_nil _ (by
      rw [toList_append]; simp)] at hc
    have hsp : (" " ++ b).toList = [' '] ++ b.toList := toList_append " " b
    rw [hsp, List.getLast?_append_of_ne_nil _ (toList_ne_nil b hb0)] at hc
    exact last_not_space_of_pstrip_self b hb1 c hc

/-- Claim C5 fails as stated: appended address segments are not internally
trimmed, so a Line 2 of " B" (non-blank after trimming, but carrying a
leading space) produces a double space: the derived Address is "A  B", not
the single-space concatenation "A B". -/
theorem c5_counterexample :
    deriveAddress true true true (Cell.str "A") (Cell.str " B") Cell.na = "A  B"
    ∧ containsSub "  " "A  B" = true
    ∧ "A  B" ≠ "A B" := by
  refine ⟨rfl, rfl, ?_⟩
  decide

/-- Claim C5 (amended): the derived Address concatenates Line 1, Line 2 and
Building in that fixed order, appending each later segment verbatim behind a
single space when it is non-blank after trimming and omitting it when blank,
then trims the ends of the result.  Segments are not internally trimmed, so
whenever the present segments carry no leading or trailing whitespace (and
Line 1 is non-blank), the Address is exactly the single-space join of the
non-blank segments. -/
theorem c5_address_join (s1 s2 s3 : String) (h1 : pstrip s1 = s1) (h10 : s1 ≠ "")
    (h2 : pstrip s2 = s2) (h3 : pstrip s3 = s3) :
    deriveAddress true true true (Cell.str s1) (Cell.str s2) (Cell.str s3)
      = joinNonBlank [s1, s2, s3] := by
  show pstrip ([s2, s3].foldl (fun a q => a ++ (if pstrip q = "" then "" else " " ++ q)) s1)
      = joinNonBlank [s1, s2, s3]
  rw [List.foldl_cons, List.foldl_cons, List.foldl_nil, h2, h3]
  by_cases e2 : s2 = "" <;> by_cases e3 : s3 = ""
  · simp only [e2, e3, if_pos, String.append_empty]
    rw [h1]
    simp [joinNonBlank, List.filter_cons, h10, e2, e3]
  · simp only [e2, if_pos, String.append_empty, if_neg e3]
    rw [pstrip_append_sep s1 s3 h1 h10 h3 e3]
    simp [joinNonBlank, List.filter_cons, h10, e2, e3, String.append_assoc]
  · simp only [e3, if_pos, String.append_empty, if_neg e2]
    rw [pstrip_append_sep s1 s2 h1 h10 h2 e2]
    simp [joinNonBlank, List.filter_cons, h10, e2, e3, String.append_assoc]
  · simp only [if_neg e2, if_neg e3]
    rw [pstrip_append_sep (s1 ++ (" " ++ s2)) s3
      (pstrip_append_sep s1 s2 h1 h10 h2 e2) (append_ne_empty_left s1 _ h10) h3 e3]
    simp [joinNonBlank, List.filter_cons, h10, e2, e3, String.append_assoc]

/-- Witness for C5: the amended theorem applied at concrete trimmed segments. -/
theorem c5_witness :
    deriveAddress true true true (Cell.str "123 Main") (Cell.str "Apt 2") (Cell.str "Bldg C")
      = joinNonBlank ["123 Main", "Apt 2", "Bldg C"] :=
  c5_address_join "123 Main" "Apt 2" "Bldg C" rfl (by decide) rfl rfl

/-! ### Claim C4 -/

theorem mem_ite_nil (b : Bool) (l : List String) (x : String) :
    x ∈ (if b then l else []) ↔ b = true ∧ x ∈ l := by
  cases b <;> simp

theorem phone_mem_exportCols (t : OutTable) :
    "Phone" ∈ exportCols t ↔ t.hasPhone = true := by
  simp [exportCols, mem_ite_nil]

/-- Claim C4 (confirmed): with both phone columns present, the derived Phone
is the trimmed mobile when the mobile value is non-blank after trimming, and
otherwise the trimmed home value (a missing home reads as the empty string);
with neither column present the Phone column is absent from the output
entirely (`derivePhone` yields none, `hasPhone` is false, and "Phone" is not
an export column). -/
theorem c4_phone (s h : String) (home : Cell) (headers : List String)
    (data : List (List Cell)) (dflt : Bool) (t : OutTable) :
    (pstrip s ≠ "" → derivePhone true true (Cell.str s) home = some (pstrip s))
    ∧ (pstrip s = "" →
        derivePhone true true (Cell.str s) (Cell.str h) = some (pstrip h))
    ∧ (pstrip s = "" → derivePhone true true (Cell.str s) Cell.na = some "")
    ∧ (derivePhone true true Cell.na (Cell.str h) = some (pstrip h))
    ∧ (derivePhone false false (Cell.str s) home = none)
    ∧ ((normalize_for_display headers data dflt).hasPhone
        = (hasCol headers "Mobile Phone" || hasCol headers "Home Phone"))
    ∧ (t.hasPhone = false → "Phone" ∉ exportCols t) := by
  refine ⟨?_, ?_, ?_, ?_, ?_, ?_, ?_⟩
  · intro hs
    simp [derivePhone, fillna, pdStrTrim, cellStr, hs]
  · intro hs
    simp [derivePhone, fillna, pdStrTrim, cellStr, hs]
  · intro hs
    simp [derivePhone, fillna, pdStrTrim, cellStr, hs]
    rfl
  · simp [derivePhone, fillna, pdStrTrim, cellStr]
    rfl
  · simp [derivePhone]
  · simp [normalize_for_display]
  · intro hp
    simp [phone_mem_exportCols, hp]

/-- Witness for C4: the blank-mobile branch at concrete inputs. -/
theorem c4_witness :
    derivePhone true true (Cell.str " ") (Cell.str " 555-1234 ") = some "555-1234" := by
  have hm := (c4_phone " " " 555-1234 " Cell.na [] [] true
    ⟨true, true, true, true, true, true, true, true, []⟩).2.1 rfl
  rw [hm]
  rfl

/-! ### Claim C3 -/

theorem findHeaderGo_eq_none_iff (l : List (List Cell)) :
    ∀ i, (findHeaderGo i l = none
      ↔ ∀ r ∈ l, pstrip (cellStr (r.getD 0 Cell.na)) ≠ "Delivery Route") := by
  induction l with
  | nil => intro i; simp [findHeaderGo]
  | cons r rs ih =>
      intro i
      by_cases hr : pstrip (cellStr (r.getD 0 Cell.na)) = "Delivery Route"
      · rw [findHeaderGo, if_pos hr]
        constructor
        · intro h; cases h
        · intro hall; exact absurd hr (hall r (List.mem_cons_self r rs))
      · rw [findHeaderGo, if_neg hr, ih (i + 1)]
        constructor
        · intro hall c hm
          rcases List.mem_cons.mp hm with h1 | h2
          · rw [h1]; exact hr
          · exact hall c h2
        · intro hall c hm
          exact hall c (List.mem_cons_of_mem r hm)

/-- Claim C3 (amended): `read_report` raises the header error iff no cell in
column 0 of the first 25 rows of the Report sheet, converted to string and
whitespace-trimmed, equals "Delivery Route" (the comparison strips, so a
cell " Delivery Route " is accepted, not "exactly equal" as claimed); the
error names the expected header; and the upload loop is per-day isolated: a
day with no upload or a failing upload keeps its previous table (the failure
only adds that day's error message), and each day of the resulting state
depends only on that day's own previous table and upload. -/
theorem c3_header_error (rows : List (List Cell)) (dflt : Bool) (old : WeekState)
    (ups : Uploads) (dayName : String) (sheet : List (List Cell))
    (o : Option OutTable) (e : String) :
    ((read_report rows dflt).isOk = false
      ↔ ∀ r ∈ rows.take 25, pstrip (cellStr (r.getD 0 Cell.na)) ≠ "Delivery Route")
    ∧ (findHeader rows = none → read_report rows dflt
        = .error "Could not find header row containing 'Delivery Route' on the 'Report' sheet.")
    ∧ (procDay dayName dflt o none = (o, none))
    ∧ (read_report sheet dflt = .error e →
        procDay dayName dflt o (some sheet) = (o, some (dayName ++ ": " ++ e)))
    ∧ ((process_uploads old ups dflt).1.monday = (procDay "Monday" dflt old.monday ups.monday).1
        ∧ (process_uploads old ups dflt).1.tuesday = (procDay "Tuesday" dflt old.tuesday ups.tuesday).1
        ∧ (process_uploads old ups dflt).1.wednesday = (procDay "Wednesday" dflt old.wednesday ups.wednesday).1
        ∧ (process_uploads old ups dflt).1.thursday = (procDay "Thursday" dflt old.thursday ups.thursday).1
        ∧ (process_uploads old ups dflt).1.friday = (procDay "Friday" dflt old.friday ups.friday).1) := by
  have key : (read_report rows dflt).isOk = false ↔ findHeader rows = none := by
    unfold read_report
    cases h : findHeader rows with
    | none => simp [h, Except.isOk, Except.toBool]
    | some j => simp [h, Except.isOk, Except.toBool]
  refine ⟨?_, ?_, ?_, ?_, ?_, ?_, ?_, ?_, ?_⟩
  · rw [key]
    unfold findHeader
    exact findHeaderGo_eq_none_iff (rows.take 25) 0
  · intro h
    unfold read_report
    rw [h]
  · rfl
  · intro h
    simp [procDay, h]
  · rfl
  · rfl
  · rfl
  · rfl
  · rfl

/-- Claim C3 fails as stated: a sheet whose first cell is " Delivery Route "
(whitespace-padded, so no cell is exactly equal to "Delivery Route") is still
accepted, because the code compares after `str(...).strip()`. -/
theorem c3_counterexample :
    (read_report [[Cell.str " Delivery Route "], [Cell.str "R1"]] true).isOk = true
    ∧ ([[Cell.str " Delivery Route "], [Cell.str "R1"]].map
        (fun r => r.getD 0 Cell.na)).all
        (fun c => decide (c ≠ Cell.str "Delivery Route")) = true := by
  constructor
  · rfl
  · decide

/-- Witness for C3: the failure branch at a concrete malformed sheet. -/
theorem c3_witness :
    procDay "Monday" true none (some [[Cell.str "bogus"]])
      = (none, some ("Monday: " ++ "Could not find header row containing 'Delivery Route' on the 'Report' sheet.")) :=
  (c3_header_error [] true ⟨none, none, none, none, none⟩
    ⟨none, none, none, none, none⟩ "Monday" [[Cell.str "bogus"]] none
    "Could not find header row containing 'Delivery Route' on the 'Report' sheet.").2.2.2.1 rfl

/-! ### Claim C2 -/

theorem routeStep_keep_none (flag : Bool) (c : Cell) (order : List String)
    (h : keepRoute flag c = none) : routeStep flag order c = order := by
  cases c with
  | na => rfl
  | str s =>
      by_cases hb : (flag && containsSub "COPO" (upperStr (cellStr (Cell.str s)))) = true
      · simp [routeStep, hb]
      · simp [keepRoute, hb] at h
  | num q =>
      by_cases hb : (flag && containsSub "COPO" (upperStr (cellStr (Cell.num q)))) = true
      · simp [routeStep, hb]
      · simp [keepRoute, hb] at h

theorem routeStep_keep_some (flag : Bool) (c : Cell) (order : List String) (rs : String)
    (h : keepRoute flag c = some rs) :
    routeStep flag order c = if rs ∈ order then order else order ++ [rs] := by
  cases c with
  | na => cases h
  | str s =>
      by_cases hb : (flag && containsSub "COPO" (upperStr (cellStr (Cell.str s)))) = true
      · simp [keepRoute, hb] at h
      · simp [keepRoute, hb] at h
        subst h
        simp [routeStep, hb]
  | num q =>
      by_cases hb : (flag && containsSub "COPO" (upperStr (cellStr (Cell.num q)))) = true
      · simp [keepRoute, hb] at h
      · simp [keepRoute, hb] at h
        subst h
        simp [routeStep, hb]

theorem dedupFirstSeen_congr (l : List String) :
    ∀ (s1 s2 : List String), (∀ x, x ∈ s1 ↔ x ∈ s2) →
      dedupFirstSeen s1 l = dedupFirstSeen s2 l := by
  induction l with
  | nil => intro s1 s2 _; rfl
  | cons x xs ih =>
      intro s1 s2 hs
      unfold dedupFirstSeen
      by_cases hx : x ∈ s1
      · rw [if_pos hx, if_pos ((hs x).mp hx)]
        exact ih s1 s2 hs
      · rw [if_neg hx, if_neg (fun hc => hx ((hs x).mpr hc))]
        rw [ih (x :: s1) (x :: s2) (by intro y; simp [hs y])]

theorem dedupFirstSeen_cons (seen : List String) (x : String) (xs : List String) :
    dedupFirstSeen seen (x :: xs)
      = if x ∈ seen then dedupFirstSeen seen xs else x :: dedupFirstSeen (x :: seen) xs := rfl

theorem foldl_routeStep_eq (flag : Bool) :
    ∀ (cs : List Cell) (order : List String),
      cs.foldl (routeStep flag) order
        = order ++ dedupFirstSeen order (cs.filterMap (keepRoute flag)) := by
  intro cs
  induction cs with
  | nil => intro order; simp [dedupFirstSeen]
  | cons c cs ih =>
      intro order
      rw [List.foldl_cons]
      cases h : keepRoute flag c with
      | none =>
          rw [routeStep_keep_none flag c order h, ih order, List.filterMap_cons, h]
      | some rs =>
          rw [routeStep_keep_some flag c order rs h, List.filterMap_cons, h]
          by_cases hm : rs ∈ order
          · rw [if_pos hm, ih order, dedupFirstSeen_cons, if_pos hm]
          · rw [if_neg hm, ih (order ++ [rs]), dedupFirstSeen_cons, if_neg hm]
            rw [dedupFirstSeen_congr _ (order ++ [rs]) (rs :: order) (by intro y; simp; tauto)]
            simp

theorem foldl_days_eq (flag : Bool) :
    ∀ (ods : List (Option OutTable)) (init : List String),
      ods.foldl (fun order od => (dayCells od).foldl (routeStep flag) order) init
        = (ods.flatMap dayCells).foldl (routeStep flag) init := by
  intro ods
  induction ods with
  | nil => intro init; rfl
  | cons od ods ih =>
      intro init
      rw [List.foldl_cons, ih, List.flatMap_cons, List.foldl_append]

theorem dedupFirstSeen_not_mem_seen (l : List String) :
    ∀ (seen : List String) (x : String), x ∈ dedupFirstSeen seen l → x ∉ seen := by
  induction l with
  | nil => intro seen x hx; cases hx
  | cons a as ih =>
      intro seen x hx
      unfold dedupFirstSeen at hx
      by_cases ha : a ∈ seen
      · rw [if_pos ha] at hx
        exact ih seen x hx
      · rw [if_neg ha] at hx
        rcases List.mem_cons.mp hx with h1 | h2
        · rw [h1]; exact ha
        · intro hc
          exact ih (a :: seen) x h2 (List.mem_cons_of_mem a hc)

theorem dedupFirstSeen_nodup (l : List String) :
    ∀ (seen : List String), (dedupFirstSeen seen l).Nodup := by
  induction l with
  | nil => intro seen; exact List.nodup_nil
  | cons a as ih =>
      intro seen
      unfold dedupFirstSeen
      by_cases ha : a ∈ seen
      · rw [if_pos ha]; exact ih seen
      · rw [if_neg ha]
        refine List.nodup_cons.mpr ⟨?_, ih (a :: seen)⟩
        intro hc
        exact dedupFirstSeen_not_mem_seen as (a :: seen) a hc (List.mem_cons_self a seen)

theorem dedupFirstSeen_subset (l : List String) :
    ∀ (seen : List String) (x : String), x ∈ dedupFirstSeen seen l → x ∈ l := by
  induction l with
  | nil => intro seen x hx; cases hx
  | cons a as ih =>
      intro seen x hx
      unfold dedupFirstSeen at hx
      by_cases ha : a ∈ seen
      · rw [if_pos ha] at hx
        exact List.mem_cons_of_mem a (ih seen x hx)
      · rw [if_neg ha] at hx
        rcases List.mem_cons.mp hx with h1 | h2
        · rw [h1]; exact List.mem_cons_self a as
        · exact List.mem_cons_of_mem a (ih (a :: seen) x h2)

/-- The one-day example table carrying just route names. -/
def routeOnlyRow (s : String) : OutRow :=
  ⟨Cell.str s, Cell.na, Cell.na, Cell.na, Cell.na, Cell.na, Cell.na, 0, true⟩

/-- A week whose Monday table holds the given route names in order. -/
def mondayWeek (routes : List String) : WeekState :=
  ⟨some ⟨true, false, false, false, false, true, false, false, routes.map routeOnlyRow⟩,
    none, none, none, none⟩

/-- Claim C2 (confirmed): route selection is the first-seen deduplication of
the route-name stream taken from the per-day tables in fixed
Monday-to-Friday order, after dropping missing names and (when the flag is
set) names containing "COPO" case-insensitively, truncated to 14 entries.
Consequently the result is duplicate-free, has at most 14 entries, contains
no COPO name when the flag is set; ["B", "A", "B", "C"] with no exclusion
yields ["B", "A", "C"], and "copo-east" is excluded under the flag. -/
theorem c2_route_selection (w : WeekState) (flag : Bool) :
    (filter_routes_from_week w flag 14
      = (dedupFirstSeen [] ((w.days.flatMap dayCells).filterMap (keepRoute flag))).take 14)
    ∧ (filter_routes_from_week w flag 14).Nodup
    ∧ (filter_routes_from_week w flag 14).length ≤ 14
    ∧ (flag = true → ∀ r ∈ filter_routes_from_week w flag 14,
        containsSub "COPO" (upperStr r) = false)
    ∧ filter_routes_from_week (mondayWeek ["B", "A", "B", "C"]) false 14 = ["B", "A", "C"]
    ∧ filter_routes_from_week (mondayWeek ["copo-east", "R1"]) true 14 = ["R1"] := by
  have key : filter_routes_from_week w flag 14
      = (dedupFirstSeen [] ((w.days.flatMap dayCells).filterMap (keepRoute flag))).take 14 := by
    unfold filter_routes_from_week
    rw [foldl_days_eq flag w.days [], foldl_routeStep_eq flag _ []]
    simp
  refine ⟨key, ?_, ?_, ?_, ?_, ?_⟩
  · rw [key]
    exact (dedupFirstSeen_nodup _ []).sublist (List.take_sublist _ _)
  · rw [key]
    simp [List.length_take]
  · intro hflag r hr
    rw [key] at hr
    have h1 := dedupFirstSeen_subset _ [] r (List.mem_of_mem_take hr)
    obtain ⟨c, _, hc⟩ := List.mem_filterMap.mp h1
    cases c with
    | na => cases hc
    | str s =>
        by_cases hb : (flag && containsSub "COPO" (upperStr (cellStr (Cell.str s)))) = true
        · simp [keepRoute, hb] at hc
        · simp [keepRoute, hb] at hc
          rw [hflag] at hb
          subst hc
          simpa using hb
    | num q =>
        by_cases hb : (flag && containsSub "COPO" (upperStr (cellStr (Cell.num q)))) = true
        · simp [keepRoute, hb] at hc
        · simp [keepRoute, hb] at hc
          rw [hflag] at hb
          subst hc
          simpa using hb
  · rfl
  · decide

/-- Witness for C2: the exclusion clause of the theorem applied at the
concrete COPO example. -/
theorem c2_witness : containsSub "COPO" (upperStr "R1") = false := by
  have h := c2_route_selection (mondayWeek ["copo-east", "R1"]) true
  exact h.2.2.2.1 rfl "R1" (by rw [h.2.2.2.2.2]; exact List.mem_singleton_self "R1")

/-! ### Claim C8 -/

theorem delivered_mem_exportCols (t : OutTable) : "Delivered" ∈ exportCols t := by
  simp [exportCols, mem_ite_nil]

theorem meals_mem_exportCols (t : OutTable) (h : t.hasMeals = true) :
    "Meals" ∈ exportCols t := by
  simp [exportCols, mem_ite_nil, h]

/-- Claim C8 (confirmed): in every exported sheet the TOTALS row sits at
0-indexed row N+1 — immediately below the N data rows, which occupy 0-indexed
rows 1..N under the header row — and the COUNTIF / SUM formulas reference
exactly 1-indexed rows 2..N+1 of the Delivered / Meals column, lettered from
the 0-based column index by standard bijective base-26 lettering (0 is A,
7 is H, 25 is Z, 26 is AA). -/
theorem c8_totals_formulas (t : OutTable) (route : String) (m : SheetModel)
    (hm : to_excel_route_day t route = some m) :
    (m.totalsRow = m.data.length + 1
      ∧ m.countif = some (m.data.length + 1, (exportCols t).indexOf "Delivered",
          countifFormula (col_letter ((exportCols t).indexOf "Delivered")) m.data.length)
      ∧ (t.hasMeals = true →
          m.sum = some (m.data.length + 1, (exportCols t).indexOf "Meals",
            sumFormula (col_letter ((exportCols t).indexOf "Meals")) m.data.length))
      ∧ countifFormula (col_letter ((exportCols t).indexOf "Delivered")) m.data.length
          = "=COUNTIF(" ++ col_letter ((exportCols t).indexOf "Delivered") ++ "2:"
            ++ col_letter ((exportCols t).indexOf "Delivered")
            ++ toString (m.data.length + 1) ++ ",\"X\")"
      ∧ col_letter 0 = "A" ∧ col_letter 7 = "H" ∧ col_letter 25 = "Z"
      ∧ col_letter 26 = "AA") := by
  unfold to_excel_route_day at hm
  by_cases hr : t.hasRoute = true
  · rw [if_pos hr] at hm
    have hmv := (Option.some.injEq _ _).mp hm
    subst hmv
    refine ⟨by simp, ?_, ?_, rfl, rfl, rfl, rfl, rfl⟩
    · rw [if_pos (delivered_mem_exportCols t)]
      simp
    · intro hmeals
      rw [if_pos (meals_mem_exportCols t hmeals)]
      simp
  · rw [if_neg hr] at hm
    cases hm

/-- A concrete three-row day table used to exercise the export layout. -/
def c8Table : OutTable :=
  ⟨true, false, false, false, false, true, false, false,
    [routeOnlyRow "B", routeOnlyRow "A", routeOnlyRow "B"]⟩

/-- The sheet `to_excel_route_day` produces for route "B" of `c8Table`. -/
def c8SheetVal : SheetModel :=
  ⟨["Delivery Route", "Meals", "Delivered"],
    [[Cell.str "B", Cell.num 0, Cell.str "X"], [Cell.str "B", Cell.num 0, Cell.str "X"]],
    3, some (3, 2, "=COUNTIF(C2:C3,\"X\")"), some (3, 1, "=SUM(B2:B3)")⟩

/-- Witness for C8: the theorem applied at a concrete two-data-row sheet. -/
theorem c8_witness :
    c8SheetVal.totalsRow = c8SheetVal.data.length + 1
    ∧ c8SheetVal.countif = some (c8SheetVal.data.length + 1,
        (exportCols c8Table).indexOf "Delivered",
        countifFormula (col_letter ((exportCols c8Table).indexOf "Delivered"))
          c8SheetVal.data.length) :=
  ⟨(c8_totals_formulas c8Table "B" c8SheetVal (by decide)).1,
   (c8_totals_formulas c8Table "B" c8SheetVal (by decide)).2.1⟩

/-! ### Claim C9 -/

theorem map_getD_indexOf (l : List String) (f : String → Cell) (a : String) (h : a ∈ l) :
    (l.map f).getD (l.indexOf a) Cell.na = f a := by
  have hlt : l.indexOf a < l.length := List.indexOf_lt_length.mpr h
  rw [List.getD_eq_getElem _ _ (by simpa using hlt), List.getElem_map,
    List.getElem_indexOf hlt]

/-- Claim C9 (confirmed): the Delivered flag is rendered as "X"/"" only in
the exported sheet (the week-state table itself is not what is written: the
export maps a copy), while the JSON snapshot keeps the boolean itself, so a
save followed by a reload preserves delivered booleans exactly — never the
"X" marker. -/
theorem c9_delivered_round_trip (t : OutTable) (route : String) (dflt : Bool)
    (m : SheetModel) :
    renderDelivered true = "X"
    ∧ renderDelivered false = ""
    ∧ (to_excel_route_day t route = some m →
        m.data.map (fun row => row.getD ((exportCols t).indexOf "Delivered") Cell.na)
          = (t.rows.filter (fun r => decide (cellStr r.route = route))).map
              (fun r => Cell.str (renderDelivered r.delivered)))
    ∧ ((save_table t).rows.map (fun r => r.delivered) = t.rows.map (fun r => r.delivered))
    ∧ ((restoreTable (save_table t) dflt).rows.map (fun r => r.delivered)
        = t.rows.map (fun r => r.delivered)) := by
  refine ⟨rfl, rfl, ?_, ?_, ?_⟩
  · intro hm
    unfold to_excel_route_day at hm
    by_cases hr : t.hasRoute = true
    · rw [if_pos hr] at hm
      have hmv := (Option.some.injEq _ _).mp hm
      subst hmv
      simp only [List.map_map]
      apply List.map_congr_left
      intro r _
      show ((exportCols t).map (getOutField r)).getD ((exportCols t).indexOf "Delivered") Cell.na
          = Cell.str (renderDelivered r.delivered)
      rw [map_getD_indexOf _ _ _ (delivered_mem_exportCols t)]
      rfl
    · rw [if_neg hr] at hm
      cases hm
  · simp [save_table, saveRow, List.map_map, Function.comp]
  · simp [restoreTable, save_table, saveRow, List.map_map, Function.comp]

/-- Witness for C9: the export-rendering clause at the concrete sheet. -/
theorem c9_witness :
    c8SheetVal.data.map
        (fun row => row.getD ((exportCols c8Table).indexOf "Delivered") Cell.na)
      = (c8Table.rows.filter (fun r => decide (cellStr r.route = "B"))).map
          (fun r => Cell.str (renderDelivered r.delivered)) :=
  (c9_delivered_round_trip c8Table "B" true c8SheetVal).2.2.1 (by decide)

/-! ### Claim C6 -/

/-- Claim C6 (confirmed): the load handler assigns the week state only after
the whole new state is built, so any deserialization failure (a bad JSON
document or a bad day value) is caught and reported as a load error while
the prior five-day state is returned completely unchanged; on success all
five day tables come from the loaded document. -/
theorem c6_restore_atomic (old : WeekState) (dflt : Bool)
    (raw : Except String RawSnapshot) (e : String) (n : WeekState) :
    (raw.bind (build_new_state dflt) = .error e →
      load_week_json old dflt raw = (old, some ("Load failed: " ++ e)))
    ∧ (raw.bind (build_new_state dflt) = .ok n →
      load_week_json old dflt raw = (n, none)) := by
  constructor
  · intro h
    unfold load_week_json
    rw [h]
  · intro h
    unfold load_week_json
    rw [h]

/-- Witness for C6: a document with a bad Tuesday value leaves a concrete
prior state untouched and reports the failure. -/
theorem c6_witness :
    load_week_json ⟨some c8Table, none, none, none, none⟩ true
        (Except.ok ⟨JsonDay.null, JsonDay.bad "boom", JsonDay.null, JsonDay.null, JsonDay.null⟩)
      = (⟨some c8Table, none, none, none, none⟩, some ("Load failed: " ++ "boom")) :=
  (c6_restore_atomic ⟨some c8Table, none, none, none, none⟩ true
    (Except.ok ⟨JsonDay.null, JsonDay.bad "boom", JsonDay.null, JsonDay.null, JsonDay.null⟩)
    "boom" ⟨none, none, none, none, none⟩).1 rfl

/-! ### Claim C7 -/

/-- Claim C7 (confirmed): a successful restore maps a null day marker to no
table and a record list to a rebuilt table; the Meals column is re-coerced
by the same numeric rule as at parse time (missing/non-parseable values give
0), and a saved document without the Delivered key gets every row's
Delivered backfilled with the currently configured default — not with any
value from save time. -/
theorem c7_restore_semantics (dflt : Bool) (s : SavedTable) (c : Cell) :
    (restore_day dflt JsonDay.null = .ok none)
    ∧ (restore_day dflt (JsonDay.records s) = .ok (some (restoreTable s dflt)))
    ∧ (s.hasMeals = true →
        (restoreTable s dflt).rows.map (fun r => r.meals)
          = s.rows.map (fun r => coerceMeals r.meals))
    ∧ (to_numeric_coerce c = none → coerceMeals c = 0)
    ∧ (s.hasDelivered = false →
        (restoreTable s dflt).rows.map (fun r => r.delivered)
          = s.rows.map (fun _ => dflt)) := by
  refine ⟨rfl, rfl, ?_, ?_, ?_⟩
  · intro h
    simp [restoreTable, h, List.map_map, Function.comp]
  · intro h
    unfold coerceMeals
    rw [h]
    rfl
  · intro h
    simp [restoreTable, h, List.map_map, Function.comp_def]

/-- A concrete saved day without the Delivered key and with a non-parseable
Meals value. -/
def c7Saved : SavedTable :=
  ⟨true, false, false, false, false, true, false, false, false,
    [⟨Cell.str "R1", Cell.na, Cell.na, Cell.na, Cell.na, Cell.na, Cell.na,
      Cell.str "abc", false⟩]⟩

/-- Witness for C7: restoring `c7Saved` re-coerces "abc" to 0 and backfills
Delivered with the current default (true), not the saved false. -/
theorem c7_witness :
    (restoreTable c7Saved true).rows.map (fun r => r.meals)
        = c7Saved.rows.map (fun r => coerceMeals r.meals)
    ∧ (restoreTable c7Saved true).rows.map (fun r => r.delivered)
        = c7Saved.rows.map (fun _ => true) :=
  ⟨(c7_restore_semantics true c7Saved Cell.na).2.2.1 rfl,
   (c7_restore_semantics true c7Saved Cell.na).2.2.2.2 rfl⟩
